import Mathlib

/-!
# Verification of the `esc_decode` pipeline

Shallow embedding of `esc_decode/process.py` and `esc_decode/reg_desc.py`:
the time-based packet aggregator, the hex-string byte assembler, the ESC
protocol decoder and the register describer, together with theorems checking
the specification's claims about them.

Conventions of the embedding:
* Python `bytes` values are `List Nat` (entries `< 256` where the Python type
  guarantees it);
* timestamps are `Int` nanoseconds (as produced by `np.timedelta64(_, "ns")`);
* fallible Python code (raised exceptions) is modelled with `Except PyErr`;
* `Result`/`Ok`/`Error` from the `expression` library is modelled by the same
  `Except` type (`Ok ↦ .ok`, `Error ↦ .error`).
-/

namespace EscDecode

/-- One CSV row after `row_stream` renaming: the `RowDict` TypedDict of
`process.py` (`MISO`/`MOSI` hex strings and a nanosecond timestamp). -/
structure RowDict where
  MISO : String
  MOSI : String
  time : Int
deriving DecidableEq, Repr

/-- The Python exceptions that the pipeline can raise, by site.
* `valueError msg` — a `ValueError(msg)` with a literal message (decoder);
* `emptyMisoMosi` — the `ValueError("Empty MISO or MOSI value at group …")`
  of `packet_transform` (the interpolated group repr is not reproduced);
* `invalidHexLiteral s` — the `ValueError` raised by `int(s, 16)`;
* `byteOutOfRange` — the `ValueError("bytes must be in range(0, 256)")`
  raised by the `bytes(...)` constructor;
* `notImplementedError msg` — `NotImplementedError(msg)`;
* `emptyException` — the distinguished empty-reason `EmptyException`;
* `assertionError msg` — a failed `assert cond, msg`;
* `keyError` — a dict `KeyError`. -/
inductive PyErr where
  | valueError (msg : String)
  | emptyMisoMosi
  | invalidHexLiteral (s : String)
  | byteOutOfRange
  | notImplementedError (msg : String)
  | emptyException
  | assertionError (msg : String)
  | keyError
deriving DecidableEq, Repr

/-! ## Python `int(s, 16)`

Model of the builtin called at `process.py:70-71`.  It accepts optional
surrounding ASCII whitespace, an optional sign, an optional `0x`/`0X` prefix
and a non-empty run of hex digits (digit-grouping underscores are not
modelled; no claim depends on them). -/

/-- ASCII whitespace accepted (and stripped) by Python's `int`. -/
def isPySpace (c : Char) : Bool :=
  c = ' ' || c = '\t' || c = '\n' || c = '\r'

/-- Hexadecimal digit recognizer. -/
def isHexDigitChar (c : Char) : Bool :=
  c.isDigit || (decide ('a' ≤ c) && decide (c ≤ 'f'))
    || (decide ('A' ≤ c) && decide (c ≤ 'F'))

/-- Value of a hexadecimal digit. -/
def hexDigitVal (c : Char) : Nat :=
  if c.isDigit then c.toNat - 48
  else if decide ('a' ≤ c) && decide (c ≤ 'f') then c.toNat - 97 + 10
  else c.toNat - 65 + 10

/-- A non-empty run of hex digits, most significant first. -/
def parseHexRun (cs : List Char) : Option Nat :=
  if cs ≠ [] ∧ cs.all isHexDigitChar then
    some (cs.foldl (fun a c => 16 * a + hexDigitVal c) 0)
  else none

/-- Digits with an optional `0x`/`0X` prefix (as `int(_, 16)` allows). -/
def parseHexBody (cs : List Char) : Option Nat :=
  match cs with
  | '0' :: c :: rest =>
      if c = 'x' ∨ c = 'X' then parseHexRun rest
      else parseHexRun ('0' :: c :: rest)
  | other => parseHexRun other

/-- Python `int(s, 16)`: `some v` on success, `none` when the builtin would
raise `ValueError`. -/
def pyIntHex (s : String) : Option Int :=
  let cs := ((s.toList.dropWhile isPySpace).reverse.dropWhile isPySpace).reverse
  match cs with
  | '-' :: rest => (parseHexBody rest).map (fun n => -(n : Int))
  | '+' :: rest => (parseHexBody rest).map (fun n => (n : Int))
  | other => (parseHexBody other).map (fun n => (n : Int))

/-! ## Packet Aggregator (`aggregate_stream`, `process.py:32-46`)

The generator keeps an open `group` and the time of the last appended row;
`np.timedelta64(threshold, "us")` compared against nanosecond differences is
`1000 * threshold` nanoseconds. -/

/-- Loop body of `aggregate_stream`: `group` is the open group, `last` the
timestamp of the previously seen row (only read when `group` is non-empty,
matching the Python `last_time` which is assigned before first being read). -/
def aggregateGo (th : Int) : List RowDict → List RowDict → Int → List (List RowDict)
  | [], group, _ => if group = [] then [] else [group]
  | r :: rs, group, last =>
      if group = [] then aggregateGo th rs [r] r.time
      else if r.time - last ≤ 1000 * th then aggregateGo th rs (group ++ [r]) r.time
      else group :: aggregateGo th rs [r] r.time

/-- `aggregate_stream(rows, threshold=4)`. -/
def aggregate_stream (rows : List RowDict) (threshold : Int := 4) : List (List RowDict) :=
  aggregateGo threshold rows [] 0

/-! ## Byte Assembler (`packet_transform`, `process.py:55-76`) -/

/-- `ESC_raw_packet` TypedDict: the two assembled byte sequences. -/
structure ESC_raw_packet where
  MISOs : List Nat
  MOSIs : List Nat
deriving DecidableEq, Repr

/-- The per-row loop of `packet_transform`: empty-string check, then
`int(_, 16)` on the MISO and the MOSI field, collecting the two int lists.
The first raising row determines the error. -/
def hex_pairs : List RowDict → Except PyErr (List Int × List Int)
  | [] => .ok ([], [])
  | row :: rest =>
      if row.MISO = "" ∨ row.MOSI = "" then .error .emptyMisoMosi
      else
        match pyIntHex row.MISO with
        | none => .error (.invalidHexLiteral row.MISO)
        | some m =>
          match pyIntHex row.MOSI with
          | none => .error (.invalidHexLiteral row.MOSI)
          | some o =>
            match hex_pairs rest with
            | .error e => .error e
            | .ok (ms, os) => .ok (m :: ms, o :: os)

/-- Python `bytes(list_of_int)`: every element must lie in `range(0, 256)`,
otherwise `ValueError`. -/
def py_bytes (l : List Int) : Except PyErr (List Nat) :=
  if ∀ v ∈ l, 0 ≤ v ∧ v < 256 then .ok (l.map Int.toNat)
  else .error .byteOutOfRange

/-- Body of `packet_transform` for one group: collect the parsed ints, then
build `bytes(miso_list)` and `bytes(mosi_list)` (in that order). -/
def packet_transform_group (g : List RowDict) : Except PyErr ESC_raw_packet :=
  match hex_pairs g with
  | .error e => .error e
  | .ok (miso_list, mosi_list) =>
    match py_bytes miso_list with
    | .error e => .error e
    | .ok miso_bytes =>
      match py_bytes mosi_list with
      | .error e => .error e
      | .ok mosi_bytes => .ok ⟨miso_bytes, mosi_bytes⟩

/-- `packet_transform`: one `Result` per incoming group (a 1:1 transform). -/
def packet_transform (gs : List (List RowDict)) : List (Except PyErr ESC_raw_packet) :=
  gs.map packet_transform_group

/-! ## Protocol Decoder (`ESC_raw_packet_to_ESC_packet`, `process.py:120-169`) -/

/-- The `ESC_action` enum of `process.py` (3-bit action codes
`{NOP=0, READ=2, READ_WAIT=3, WRITE=4, ADDR_EXT=6}`). -/
inductive ESC_action where
  | NOP
  | READ
  | READ_WAIT
  | WRITE
  | ADDR_EXT
deriving DecidableEq, Repr

/-- The numeric value of each enum member. -/
def ESC_action.code : ESC_action → Nat
  | .NOP => 0
  | .READ => 2
  | .READ_WAIT => 3
  | .WRITE => 4
  | .ADDR_EXT => 6

/-- The enum constructor `ESC_action(value)`: `none` models the `ValueError`
raised on an unmapped code. -/
def ESC_action.fromCode (code : Nat) : Option ESC_action :=
  if code = 0 then some .NOP
  else if code = 2 then some .READ
  else if code = 3 then some .READ_WAIT
  else if code = 4 then some .WRITE
  else if code = 6 then some .ADDR_EXT
  else none

/-- The `.name` attribute of the enum member. -/
def ESC_action.name : ESC_action → String
  | .NOP => "NOP"
  | .READ => "READ"
  | .READ_WAIT => "READ_WAIT"
  | .WRITE => "WRITE"
  | .ADDR_EXT => "ADDR_EXT"

/-- The `ESC_packet` pydantic model. -/
structure ESC_packet where
  m_act : ESC_action
  m_addr : Nat
  m_data : List Nat
  s_resp_val : List Nat
  al_intp_req_val : List Nat
deriving DecidableEq, Repr

/-- `endian_invert`: `bytes_in[::-1]`. -/
def endian_invert (bytes_in : List Nat) : List Nat :=
  bytes_in.reverse

/-- Python `int.from_bytes(bs)`: the default byte order of the builtin is
`"big"` (most significant byte first). -/
def int_from_bytes (bs : List Nat) : Nat :=
  bs.foldl (fun acc b => acc * 256 + b) 0

/-- `ESC_raw_packet_to_ESC_packet(rst_raw_packet, ignore_addrs=set())`.
Upstream errors propagate unchanged; then, in program order:
* `raw_packet["MOSIs"][0:2][1]` — an `IndexError` (fewer than 2 MOSI bytes)
  is reported as "Packet too short, may lose data during sampling";
* `ESC_action(... & 0b111)` — a `ValueError` is reported as
  "Invalid ESC action in MOSI data";
* `m_addr = int.from_bytes(MOSIs[0:2]) >> 3`, suppressed via `EmptyException`
  when in `ignore_addrs`;
* the `match` on the action (NOP/ADDR_EXT raise `NotImplementedError`). -/
def ESC_raw_packet_to_ESC_packet (rst_raw_packet : Except PyErr ESC_raw_packet)
    (ignore_addrs : List Nat := []) : Except PyErr ESC_packet :=
  match rst_raw_packet with
  | .error e => .error e
  | .ok raw_packet =>
    match (raw_packet.MOSIs.take 2)[1]? with
    | none => .error (.valueError "Packet too short, may lose data during sampling")
    | some b1 =>
      match ESC_action.fromCode (b1 % 8) with
      | none => .error (.valueError "Invalid ESC action in MOSI data")
      | some m_act =>
        let m_addr := int_from_bytes (raw_packet.MOSIs.take 2) / 8
        if m_addr ∈ ignore_addrs then .error .emptyException
        else
          let al_intp_req_val := endian_invert (raw_packet.MISOs.take 2)
          match m_act with
          | .READ =>
              .ok ⟨.READ, m_addr, [], endian_invert (raw_packet.MISOs.drop 2),
                al_intp_req_val⟩
          | .READ_WAIT =>
              .ok ⟨.READ_WAIT, m_addr, [], endian_invert (raw_packet.MISOs.drop 3),
                al_intp_req_val⟩
          | .WRITE =>
              .ok ⟨.WRITE, m_addr, endian_invert (raw_packet.MOSIs.drop 2), [],
                al_intp_req_val⟩
          | a =>
              .error (.notImplementedError
                ("Unsupported ESC action: ESC_action." ++ a.name))

/-! ## String formatting helpers (Python f-string format specs) -/

/-- Python `f"{n:X}"` for a non-negative value: uppercase hex digits, no
leading zeros. -/
def natHexUpper (n : Nat) : String :=
  String.mk ((Nat.toDigits 16 n).map Char.toUpper)

/-- Python `f"{v:08X}"`: uppercase hex zero-padded to width 8 (a sign, when
present, counts toward the width). -/
def pyFormat08X (v : Int) : String :=
  if 0 ≤ v then
    let s := natHexUpper v.toNat
    String.mk (List.replicate (8 - s.length) '0') ++ s
  else
    let s := natHexUpper (-v).toNat
    "-" ++ (String.mk (List.replicate (7 - s.length) '0') ++ s)

/-- Python `hex(n)` for a non-negative value: `0x` plus lowercase digits. -/
def pyHex (n : Nat) : String :=
  "0x" ++ String.mk (Nat.toDigits 16 n)

/-- Python `bytes.hex()`: two lowercase digits per byte. -/
def bytesHex (bs : List Nat) : String :=
  String.mk (bs.foldr (fun b acc => Nat.digitChar (b / 16) :: Nat.digitChar (b % 16) :: acc) [])

/-- `termcolor.colored(text, "red")` when ANSI output is enabled: the text
wrapped in the color escape sequence (other colors are not used by the
source). -/
def colored (text : String) (color : String) : String :=
  if color = "red" then "\x1b[31m" ++ text ++ "\x1b[0m" else text

/-- Python `v & (1 <<< k)` on a (possibly negative) `int`, two's complement:
the masked value, `0` or `2 ^ k`. -/
def pyAndBit (v : Int) (k : Nat) : Int :=
  ((v / (2 ^ k : Nat)).emod 2) * (2 ^ k : Nat)

/-! ## Per-register decode functions (`reg_desc.py`)

Each is `Int → Except PyErr String`; a failed `assert` is
`.error (.assertionError msg)`.  After a passing assert the value is
non-negative, so bit manipulation is done on `v.toNat`. -/

/-- `decode_run_led_override` (register 0x0138). -/
def decode_run_led_override (value : Int) : Except PyErr String :=
  if ¬(0 ≤ value ∧ value ≤ 0xFF) then
    .error (.assertionError "Value must be a single byte (0-255)")
  else
    let led_code := value.toNat % 16
    let enable_override := value.toNat / 16 % 2
    let led_desc :=
      if 2 ≤ led_code ∧ led_code ≤ 12 then "Flash " ++ toString led_code ++ "x"
      else if led_code = 0 then "Off (Init)"
      else if led_code = 1 then "Flash 1x (SafeOp)"
      else if led_code = 13 then "Blinking (PreOp)"
      else if led_code = 14 then "Flickering (Bootstrap)"
      else if led_code = 15 then "On (Operational)"
      else "Unknown"
    .ok ("RUN LED Override: LED code=0x" ++ natHexUpper led_code ++ " (" ++ led_desc
      ++ "), Override=" ++ (if enable_override ≠ 0 then "Enabled" else "Disabled") ++ " ")

/-- `decode_err_led_override` (register 0x0139). -/
def decode_err_led_override (value : Int) : Except PyErr String :=
  if ¬(0 ≤ value ∧ value ≤ 0xFF) then
    .error (.assertionError "Value must be a single byte (0-255)")
  else
    let led_code := value.toNat % 16
    let enable_override := value.toNat / 16 % 2
    let led_desc :=
      if 2 ≤ led_code ∧ led_code ≤ 12 then "Flash " ++ toString led_code ++ "x"
      else if led_code = 0 then "Off"
      else if led_code = 1 then "Flash 1x"
      else if led_code = 13 then "Blinking (PreOp)"
      else if led_code = 14 then "Flickering (Bootstrap)"
      else if led_code = 15 then "On (Operational)"
      else "Unknown"
    .ok ("ERR LED Override: LED code=0x" ++ natHexUpper led_code ++ " (" ++ led_desc
      ++ "), Override=" ++ (if enable_override ≠ 0 then "Enabled" else "Disabled") ++ " ")

/-- `decode_al_status_code` (register 0x0134). -/
def decode_al_status_code (value : Int) : Except PyErr String :=
  if ¬(0 ≤ value ∧ value ≤ 0xFF) then
    .error (.assertionError "Value must be a single byte (0-255)")
  else .ok ("AL status code:" ++ toString value)

/-- `decode_pdi_control` (register 0x0140). -/
def decode_pdi_control (value : Int) : Except PyErr String :=
  if ¬(0 ≤ value ∧ value ≤ 0xFFFF) then
    .error (.assertionError "Value must be a 16-bit value (0-65535)")
  else
    let pdi_mode := value.toNat % 4
    let pdi_mode_desc :=
      if pdi_mode = 0 then "SPI"
      else if pdi_mode = 1 then "I2C"
      else if pdi_mode = 2 then "Reserved"
      else if pdi_mode = 3 then "Digital I/O"
      else "Unknown"
    .ok ("PDI Control: Mode=" ++ pdi_mode_desc ++ " (0x" ++ natHexUpper pdi_mode ++ ")")

/-- `decode_al_event_req` (register 0x0220:0x0223). -/
def decode_al_event_req (value : Int) : Except PyErr String :=
  if ¬(0 ≤ value ∧ value ≤ 0xFFFFFFFF) then
    .error (.assertionError "Value must be a 32-bit value (0-4294967295)")
  else
    let n := value.toNat
    let s0 := if n.testBit 0 then "AL Control Register has been written, " else ""
    let s1 := s0 ++ (if n.testBit 1 then "At least one change on DC Latch Inputs, " else "")
    let s2 := s1 ++ (if n.testBit 2 then "DC SYNC0, " else "")
    let s3 := s2 ++ (if n.testBit 3 then "DC SYNC1, " else "")
    let s4 := s3 ++ (if n.testBit 4 then "At least one SyncManager changed, " else "")
    let s5 := s4 ++ (if n.testBit 5 then "EEPROM command pending, " else "")
    let s6 := s5 ++ (if n.testBit 6 then "Has expired, " else "")
    let s7 := s6 ++ (if n.testBit 7 then colored "reserved bit set, " "red" else "")
    .ok ((List.range 16).foldl
      (fun acc i =>
        if n.testBit (8 + i) then
          acc ++ ("SyncManager " ++ toString i ++ " interrupt pending, ")
        else acc) s7)

/-- `decode_sync_manager_status` (register 0x0800). -/
def decode_sync_manager_status (value : Int) : Except PyErr String :=
  if ¬(0 ≤ value ∧ value ≤ 0xFF) then
    .error (.assertionError "Value must be a single byte (0-255)")
  else
    let n := value.toNat
    let status_flags := (List.range 8).foldl
      (fun acc i => if n.testBit i then acc ++ ["SM" ++ toString i ++ " Active"] else acc) []
    .ok ("Sync Manager Status: "
      ++ (if status_flags = [] then "No Active SMs" else String.intercalate ", " status_flags))

/-- `decode_watchdog_status` (register 0x0440). -/
def decode_watchdog_status (value : Int) : Except PyErr String :=
  if ¬(0 ≤ value ∧ value ≤ 0xFF) then
    .error (.assertionError "Value must be a single byte (0-255)")
  else if value = 0 then .ok "Watchdog Status: No Error"
  else if value = 1 then .ok "Watchdog Status: PDI Watchdog Triggered"
  else if value = 2 then .ok "Watchdog Status: Sync Manager Watchdog Triggered"
  else .ok ("Watchdog Status: Unknown (0x" ++ natHexUpper value.toNat ++ ")")

/-- `decode_ch2_1`: Identification Register (0x0000); no input validation. -/
def decode_ch2_1 (value : Int) : Except PyErr String :=
  .ok ("Identification Register: 0x" ++ pyFormat08X value)

/-- `decode_ch2_2`: Revision Register (0x0004); no input validation. -/
def decode_ch2_2 (value : Int) : Except PyErr String :=
  .ok ("Revision Register: 0x" ++ pyFormat08X value)

/-- The `al_state_map` dict lookup with default "Unknown" (`.get`). -/
def al_state_name (state : Nat) : String :=
  if state = 1 then "Init"
  else if state = 2 then "Pre-Operational"
  else if state = 3 then "Bootstrap"
  else if state = 4 then "Safe-Operational"
  else if state = 8 then "Operational"
  else "Unknown"

/-- `decode_ch2_20`: AL Control (0x0120); no input validation, and Python's
`&` on a two's-complement `int` is modelled by `emod`/`pyAndBit`. -/
def decode_ch2_20 (value : Int) : Except PyErr String :=
  let state := (value.emod 16).toNat
  .ok ("AL Control: req state=" ++ al_state_name state ++ " (0x" ++ natHexUpper state
    ++ "), Error Ind Ack=" ++ toString (pyAndBit value 4)
    ++ ", Device ID req=" ++ toString (pyAndBit value 5))

/-- `decode_ch2_21`: AL Status (0x0130); no input validation. -/
def decode_ch2_21 (value : Int) : Except PyErr String :=
  let state := (value.emod 16).toNat
  .ok ("State=" ++ al_state_name state ++ " (0x" ++ natHexUpper state
    ++ "), Error Ind =" ++ toString (pyAndBit value 4)
    ++ ", Device ID loaded=" ++ toString (pyAndBit value 5) ++ ", ")

/-- The `REG_ADDR_TO_NAME` dict of `reg_desc.py` as an association list. -/
def REG_ADDR_TO_NAME : List (Nat × String) :=
  [(0x0000, "Type"),
   (0x0001, "Revision"),
   (0x0002, "Build (low)"),
   (0x0003, "Build (high)"),
   (0x0004, "FMMUs supported"),
   (0x0005, "SyncManagers supported"),
   (0x0006, "RAM Size"),
   (0x0007, "Port Descriptor"),
   (0x0008, "ESC Features supported (low)"),
   (0x0009, "ESC Features supported (high)"),
   (0x0010, "Configured Station Address (low)"),
   (0x0011, "Configured Station Address (high)"),
   (0x0012, "Configured Station Alias (low)"),
   (0x0013, "Configured Station Alias (high)"),
   (0x0020, "Register Write Enable"),
   (0x0021, "Register Write Protection"),
   (0x0030, "ESC Write Enable"),
   (0x0031, "ESC Write Protection"),
   (0x0040, "ESC Reset ECAT"),
   (0x0041, "ESC Reset PDI"),
   (0x0100, "ESC DL Control (low)"),
   (0x0101, "ESC DL Control"),
   (0x0102, "ESC DL Control"),
   (0x0103, "ESC DL Control (high)"),
   (0x0108, "Physical Read/Write Offset (low)"),
   (0x0109, "Physical Read/Write Offset (high)"),
   (0x0110, "ESC DL Status (low)"),
   (0x0111, "ESC DL Status (high)"),
   (0x0120, "AL Control (low)"),
   (0x0121, "AL Control (high)"),
   (0x0130, "AL Status (low)"),
   (0x0131, "AL Status (high)"),
   (0x0134, "AL Status Code (low)"),
   (0x0135, "AL Status Code (high)"),
   (0x0138, "RUN LED Override"),
   (0x0139, "ERR LED Override"),
   (0x0140, "PDI Control"),
   (0x0141, "ESC Configuration"),
   (0x014E, "PDI Information (low)"),
   (0x014F, "PDI Information (high)"),
   (0x0150, "PDI Configuration (low)"),
   (0x0151, "PDI Configuration"),
   (0x0152, "PDI Configuration"),
   (0x0153, "PDI Configuration (high)"),
   (0x0200, "ECAT Event Mask (low)"),
   (0x0201, "ECAT Event Mask (high)"),
   (0x0204, "PDI AL Event Mask (low)"),
   (0x0205, "PDI AL Event Mask"),
   (0x0206, "PDI AL Event Mask"),
   (0x0207, "PDI AL Event Mask (high)"),
   (0x0210, "ECAT Event Request (low)"),
   (0x0211, "ECAT Event Request (high)"),
   (0x0220, "AL Event Request (low)"),
   (0x0221, "AL Event Request"),
   (0x0222, "AL Event Request"),
   (0x0223, "AL Event Request (high)"),
   (0x0300, "RX Error Counter (0)"),
   (0x0301, "RX Error Counter (1)"),
   (0x0302, "RX Error Counter (2)"),
   (0x0303, "RX Error Counter (3)"),
   (0x0304, "RX Error Counter (4)"),
   (0x0305, "RX Error Counter (5)"),
   (0x0306, "RX Error Counter (6)"),
   (0x0307, "RX Error Counter (7)"),
   (0x0308, "Forwarded RX Error Counter (0)"),
   (0x0309, "Forwarded RX Error Counter (1)"),
   (0x030A, "Forwarded RX Error Counter (2)"),
   (0x030B, "Forwarded RX Error Counter (3)"),
   (0x030C, "ECAT Processing Unit Error Counter"),
   (0x030D, "PDI Error Counter"),
   (0x030E, "PDI Error Code (low)"),
   (0x030F, "PDI Error Code (high)"),
   (0x0310, "Lost Link Counter (0)"),
   (0x0311, "Lost Link Counter (1)"),
   (0x0312, "Lost Link Counter (2)"),
   (0x0313, "Lost Link Counter (3)"),
   (0x0400, "Watchdog Divider (low)"),
   (0x0401, "Watchdog Divider (high)"),
   (0x0410, "Watchdog Time PDI (low)"),
   (0x0411, "Watchdog Time PDI (high)"),
   (0x0420, "Watchdog Time Process Data (low)"),
   (0x0421, "Watchdog Time Process Data (high)"),
   (0x0440, "Watchdog Status Process Data (low)"),
   (0x0441, "Watchdog Status Process Data (high)"),
   (0x0442, "Watchdog Counter Process Data"),
   (0x0443, "Watchdog Counter PDI"),
   (0x0500, "SII EEPROM Interface (0)"),
   (0x0501, "SII EEPROM Interface (1)"),
   (0x0502, "SII EEPROM Interface (2)"),
   (0x0503, "SII EEPROM Interface (3)"),
   (0x0504, "SII EEPROM Interface (4)"),
   (0x0505, "SII EEPROM Interface (5)"),
   (0x0506, "SII EEPROM Interface (6)"),
   (0x0507, "SII EEPROM Interface (7)"),
   (0x0508, "SII EEPROM Interface (8)"),
   (0x0509, "SII EEPROM Interface (9)"),
   (0x050A, "SII EEPROM Interface (10)"),
   (0x050B, "SII EEPROM Interface (11)"),
   (0x050C, "SII EEPROM Interface (12)"),
   (0x050D, "SII EEPROM Interface (13)"),
   (0x050E, "SII EEPROM Interface (14)"),
   (0x050F, "SII EEPROM Interface (15)"),
   (0x0510, "MII Management Interface (0)"),
   (0x0511, "MII Management Interface (1)"),
   (0x0512, "MII Management Interface (2)"),
   (0x0513, "MII Management Interface (3)"),
   (0x0514, "MII Management Interface (4)"),
   (0x0515, "MII Management Interface (5)"),
   (0x0516, "MII Management Interface (6)"),
   (0x0517, "MII Management Interface (7)"),
   (0x0518, "MII Management Interface (8)"),
   (0x0519, "MII Management Interface (9)"),
   (0x051A, "MII Management Interface (10)"),
   (0x051B, "MII Management Interface (11)"),
   (0x0600, "FMMU"),
   (0x0800, "SyncManager"),
   (0x0900, "Distributed Clocks"),
   (0x0E00, "ESC-specific registers"),
   (0x0F00, "Digital I/O Output Data (0)"),
   (0x0F01, "Digital I/O Output Data (1)"),
   (0x0F02, "Digital I/O Output Data (2)"),
   (0x0F03, "Digital I/O Output Data (3)"),
   (0x0F10, "General Purpose Outputs (0)"),
   (0x0F11, "General Purpose Outputs (1)"),
   (0x0F12, "General Purpose Outputs (2)"),
   (0x0F13, "General Purpose Outputs (3)"),
   (0x0F14, "General Purpose Outputs (4)"),
   (0x0F15, "General Purpose Outputs (5)"),
   (0x0F16, "General Purpose Outputs (6)"),
   (0x0F17, "General Purpose Outputs (7)"),
   (0x0F18, "General Purpose Inputs (0)"),
   (0x0F19, "General Purpose Inputs (1)"),
   (0x0F1A, "General Purpose Inputs (2)"),
   (0x0F1B, "General Purpose Inputs (3)"),
   (0x0F1C, "General Purpose Inputs (4)"),
   (0x0F1D, "General Purpose Inputs (5)"),
   (0x0F1E, "General Purpose Inputs (6)"),
   (0x0F1F, "General Purpose Inputs (7)"),
   (0x0F80, "User RAM (start)"),
   (0x0FFF, "User RAM (end)")]

/-- The `ESC_desc_map` dict: register address to decode function. -/
def ESC_desc_map : List (Nat × (Int → Except PyErr String)) :=
  [(0x0000, decode_ch2_1),
   (0x0004, decode_ch2_2),
   (0x0120, decode_ch2_20),
   (0x0130, decode_ch2_21),
   (0x0134, decode_al_status_code),
   (0x0138, decode_run_led_override),
   (0x0139, decode_err_led_override),
   (0x0140, decode_pdi_control),
   (0x0220, decode_al_event_req),
   (0x0440, decode_watchdog_status),
   (0x0800, decode_sync_manager_status)]

/-! ## Register Describer (`get_reg_pretty_desc`, `get_packet_desc`) -/

/-- `get_reg_pretty_desc(addr, data)` (`process.py:172-192`): register hex
address, name lookup, payload hex dump and the registered decode function
applied to `int.from_bytes(data)`. -/
def get_reg_pretty_desc (addr : Nat) (data : List Nat) : Except PyErr String :=
  let out0 := "reg:" ++ pyHex addr
  match List.lookup addr REG_ADDR_TO_NAME with
  | none => .ok (out0 ++ colored "(unknown register)" "red")
  | some nm =>
    let out1 := out0 ++ "(" ++ nm ++ ")"
    if data = [] then .ok out1
    else
      let out2 := out1 ++ ", data:0x" ++ bytesHex data
      match List.lookup addr ESC_desc_map with
      | some desc_func =>
        match desc_func (int_from_bytes data) with
        | .error e => .error e
        | .ok s => .ok (out2 ++ "(" ++ s ++ ")")
      | none => .ok (out2 ++ colored "(no description)" "red")

/-- `ESC_desc_map[0x0220](n)` as used at `process.py:218`; the dict access
would raise `KeyError` were the key missing. -/
def al_event_lookup (n : Nat) : Except PyErr String :=
  match List.lookup 0x0220 ESC_desc_map with
  | some f => f (n : Int)
  | none => .error .keyError

/-- `get_packet_desc(rst_packet)` (`process.py:195-219`): propagate upstream
failures; otherwise prefix `"mcu " + action name`, describe
`(m_addr, s_resp_val)` for READ_WAIT and `(m_addr, m_data)` for WRITE
("(no description)" for every other action), then always append the AL event
clause decoded from `al_intp_req_val`. -/
def get_packet_desc (rst_packet : Except PyErr ESC_packet) : Except PyErr String :=
  match rst_packet with
  | .error e => .error e
  | .ok packet =>
    let out1 := "mcu " ++ packet.m_act.name ++ " "
    let mid : Except PyErr String :=
      match packet.m_act with
      | .READ_WAIT => get_reg_pretty_desc packet.m_addr packet.s_resp_val
      | .WRITE => get_reg_pretty_desc packet.m_addr packet.m_data
      | _ => .ok "(no description)"
    match mid with
    | .error e => .error e
    | .ok mids =>
      match al_event_lookup (int_from_bytes packet.al_intp_req_val) with
      | .error e => .error e
      | .ok al => .ok (out1 ++ mids ++ ", when AL event(" ++ al ++ ")")

/-- The describer output when the payload shown for packet `p` is `payload`:
used to state which field each action's branch passes on. -/
def describe_with (packet : ESC_packet) (payload : List Nat) : Except PyErr String :=
  let out1 := "mcu " ++ packet.m_act.name ++ " "
  match get_reg_pretty_desc packet.m_addr payload with
  | .error e => .error e
  | .ok mids =>
    match al_event_lookup (int_from_bytes packet.al_intp_req_val) with
    | .error e => .error e
    | .ok al => .ok (out1 ++ mids ++ ", when AL event(" ++ al ++ ")")

/-- The error of a `Result`, `none` on success. -/
def errOf {α : Type} (r : Except PyErr α) : Option PyErr :=
  match r with
  | .error e => some e
  | .ok _ => none

/-- Modelled from the claim C6 cascade (spec side of the refinement): the
failure the claim predicts for an `Ok` raw packet, checked in the claim's
order — too short, invalid 3-bit action code, ignored address, unsupported
action — and `none` when the claim predicts success. -/
def claim_C6_failure (raw : ESC_raw_packet) (ignore_addrs : List Nat) : Option PyErr :=
  if raw.MOSIs.length < 2 then
    some (.valueError "Packet too short, may lose data during sampling")
  else if (raw.MOSIs.getD 1 0) % 8 ∉ [0, 2, 3, 4, 6] then
    some (.valueError "Invalid ESC action in MOSI data")
  else if int_from_bytes (raw.MOSIs.take 2) / 8 ∈ ignore_addrs then
    some .emptyException
  else if (raw.MOSIs.getD 1 0) % 8 = 0 then
    some (.notImplementedError "Unsupported ESC action: ESC_action.NOP")
  else if (raw.MOSIs.getD 1 0) % 8 = 6 then
    some (.notImplementedError "Unsupported ESC action: ESC_action.ADDR_EXT")
  else none

/-! ## Concrete sample inputs used by counterexamples and witnesses -/

/-- Raw packet with MOSI bytes `[0xAA, 0x34]` (the spec's §8 address-extraction
example; action code `0x34 & 7 = 4`, WRITE). -/
def sampleRawAA34 : ESC_raw_packet := ⟨[0x00, 0x00], [0xAA, 0x34]⟩

/-- Raw packet for a READ (action code `0x02 & 7 = 2`). -/
def sampleRawRead : ESC_raw_packet := ⟨[0x00, 0x00], [0x00, 0x02]⟩

/-- Raw packet for a 2-byte WRITE header with no payload bytes. -/
def sampleRawWriteNoPayload : ESC_raw_packet := ⟨[0x00, 0x00], [0x00, 0x04]⟩

/-- Raw packet for a READ_WAIT (action code `0x33 & 7 = 3`) with a 5-byte
MISO sequence. -/
def sampleRawReadWait : ESC_raw_packet := ⟨[1, 2, 3, 4, 5], [0xAA, 0x33]⟩

/-- Two rows with identical timestamps (for the aggregator claims). -/
def sampleRowT0 : RowDict := ⟨"00", "00", 0⟩

/-- A row 5 µs after `sampleRowT0`. -/
def sampleRowT5us : RowDict := ⟨"aa", "34", 5000⟩

/-- A row whose MISO field parses in base 16 to 511, outside one byte. -/
def sampleRowBig : RowDict := ⟨"1FF", "00", 0⟩

/-- The packet decoded from `sampleRawAA34`. -/
def samplePktAA34 : ESC_packet := ⟨.WRITE, 0x1546, [], [], [0x00, 0x00]⟩

/-- The packet decoded from `sampleRawRead`. -/
def samplePktRead : ESC_packet := ⟨.READ, 0, [], [], [0x00, 0x00]⟩

/-- The packet decoded from `sampleRawWriteNoPayload`. -/
def samplePktWriteNoPayload : ESC_packet := ⟨.WRITE, 0, [], [], [0x00, 0x00]⟩

/-- The packet decoded from `sampleRawReadWait`. -/
def samplePktReadWait : ESC_packet := ⟨.READ_WAIT, 0x1546, [], [5, 4], [2, 1]⟩

/-! ## Shared inversion lemma for successful decodes -/

/-- Any successful decode comes from a ≥ 2-byte MOSI sequence, with the
address extracted big-endian from the first two bytes and the payload fields
determined by the 3-bit action code of the second byte. -/
theorem decode_ok_elim {raw : ESC_raw_packet} {ign : List Nat} {pkt : ESC_packet}
    (h : ESC_raw_packet_to_ESC_packet (.ok raw) ign = .ok pkt) :
    ∃ b0 b1 rest, raw.MOSIs = b0 :: b1 :: rest ∧
      pkt.m_addr = (b0 * 256 + b1) / 8 ∧ pkt.m_addr ∉ ign ∧
      pkt.al_intp_req_val = (raw.MISOs.take 2).reverse ∧
      ((pkt.m_act = .READ ∧ b1 % 8 = 2 ∧
          pkt.s_resp_val = (raw.MISOs.drop 2).reverse ∧ pkt.m_data = []) ∨
       (pkt.m_act = .READ_WAIT ∧ b1 % 8 = 3 ∧
          pkt.s_resp_val = (raw.MISOs.drop 3).reverse ∧ pkt.m_data = []) ∨
       (pkt.m_act = .WRITE ∧ b1 % 8 = 4 ∧
          pkt.m_data = (raw.MOSIs.drop 2).reverse ∧ pkt.s_resp_val = [])) := by
  obtain ⟨misos, mosis⟩ := raw
  match mosis with
  | [] => simp [ESC_raw_packet_to_ESC_packet] at h
  | [b0] => simp [ESC_raw_packet_to_ESC_packet] at h
  | b0 :: b1 :: rest =>
    refine ⟨b0, b1, rest, rfl, ?_⟩
    have h8 : b1 % 8 = 0 ∨ b1 % 8 = 1 ∨ b1 % 8 = 2 ∨ b1 % 8 = 3 ∨ b1 % 8 = 4 ∨
        b1 % 8 = 5 ∨ b1 % 8 = 6 ∨ b1 % 8 = 7 := by omega
    have haddr : int_from_bytes [b0, b1] = b0 * 256 + b1 := by
      simp [int_from_bytes]
    by_cases hmem : (b0 * 256 + b1) / 8 ∈ ign
    · rcases h8 with h8 | h8 | h8 | h8 | h8 | h8 | h8 | h8 <;>
        simp [ESC_raw_packet_to_ESC_packet, ESC_action.fromCode, h8, haddr, hmem] at h
    · rcases h8 with h8 | h8 | h8 | h8 | h8 | h8 | h8 | h8 <;>
        simp [ESC_raw_packet_to_ESC_packet, ESC_action.fromCode, h8, haddr, hmem,
          endian_invert] at h <;>
        (try subst h) <;> simp [h8, hmem, haddr, List.drop]

/-! ## Claim C1: address extraction -/

/-- Claim C1 counterexample: the decoder maps the MOSI header `[0xAA, 0x34]`
to address `0x1546 = ((0xAA << 8) | 0x34) >> 3`, not to the claimed
little-endian `0x0695 = ((0xAA | (0x34 << 8)) >> 3)`; `int.from_bytes`
defaults to big-endian byte order. -/
theorem C1_counterexample :
    ESC_raw_packet_to_ESC_packet (.ok sampleRawAA34) [] = .ok samplePktAA34 ∧
      samplePktAA34.m_addr = 0x1546 ∧ (0x1546 : Nat) ≠ 0x0695 :=
  ⟨rfl, rfl, by decide⟩

/-- Claim C1 (amended): for every raw packet the decoder accepts, the MOSI
sequence has length ≥ 2, and the register address is the big-endian 16-bit
integer formed from the first two MOSI bytes shifted right by 3 bits:
`address = (mosi_bytes[0] * 256 + mosi_bytes[1]) >> 3`; in particular
`[0xAA, 0x34]` gives `0x1546`. -/
theorem C1_amended_address_bigendian (raw : ESC_raw_packet) (ign : List Nat)
    (pkt : ESC_packet) (h : ESC_raw_packet_to_ESC_packet (.ok raw) ign = .ok pkt) :
    2 ≤ raw.MOSIs.length ∧
      pkt.m_addr = (raw.MOSIs.getD 0 0 * 256 + raw.MOSIs.getD 1 0) >>> 3 := by
  obtain ⟨b0, b1, rest, hm, haddr, _⟩ := decode_ok_elim h
  constructor
  · rw [hm]; simp
  · rw [haddr, hm]
    simp [Nat.shiftRight_eq_div_pow]

/-- Witness for `C1_amended_address_bigendian` at the concrete packet
`sampleRawAA34`. -/
theorem C1_amended_witness :
    2 ≤ sampleRawAA34.MOSIs.length ∧
      samplePktAA34.m_addr =
        (sampleRawAA34.MOSIs.getD 0 0 * 256 + sampleRawAA34.MOSIs.getD 1 0) >>> 3 :=
  C1_amended_address_bigendian sampleRawAA34 [] samplePktAA34 rfl

/-! ## Helper lemmas about byte values and the AL-event decode -/

/-- Generalized bound for the big-endian fold of `int_from_bytes`. -/
theorem int_from_bytes_foldl_lt (l : List Nat) :
    ∀ acc, (∀ b ∈ l, b < 256) →
      l.foldl (fun a b => a * 256 + b) acc < (acc + 1) * 256 ^ l.length := by
  induction l with
  | nil => intro acc _; simp
  | cons b l ih =>
    intro acc h
    have hb : b < 256 := h b (by simp)
    have hrec := ih (acc * 256 + b) (fun x hx => h x (by simp [hx]))
    have h1 : acc * 256 + b + 1 ≤ (acc + 1) * 256 := by omega
    calc List.foldl (fun a b => a * 256 + b) (acc * 256 + b) l
        < (acc * 256 + b + 1) * 256 ^ l.length := hrec
      _ ≤ ((acc + 1) * 256) * 256 ^ l.length := Nat.mul_le_mul_right _ h1
      _ = (acc + 1) * 256 ^ (b :: l).length := by
          simp [List.length_cons, pow_succ]; ring

/-- A sequence of bytes denotes a value below `256 ^ length`. -/
theorem int_from_bytes_lt (l : List Nat) (h : ∀ b ∈ l, b < 256) :
    int_from_bytes l < 256 ^ l.length := by
  simpa [int_from_bytes] using int_from_bytes_foldl_lt l 0 h

/-- `decode_al_event_req` succeeds on every value within 32 bits. -/
theorem decode_al_event_req_ok (n : Nat) (hn : n ≤ 4294967295) :
    ∃ s, decode_al_event_req (n : Int) = .ok s := by
  rw [decode_al_event_req,
    if_neg (not_not_intro ⟨Int.ofNat_nonneg n, by exact_mod_cast hn⟩)]
  exact ⟨_, rfl⟩

/-- The dict access `ESC_desc_map[0x0220]` resolves to `decode_al_event_req`. -/
theorem al_event_lookup_eq (n : Nat) :
    al_event_lookup n = decode_al_event_req (n : Int) := rfl

/-! ## Byte-assembler lemmas shared by C9 and C10 -/

/-- A string that parses as hex is not empty. -/
theorem pyIntHex_ne_empty {s : String} {v : Int} (h : pyIntHex s = some v) :
    s ≠ "" := by
  intro hs
  rw [hs] at h
  have hnone : pyIntHex "" = none := rfl
  rw [hnone] at h
  cases h

/-- When every row of the group parses, `hex_pairs` collects exactly the
parsed values, in order. -/
theorem hex_pairs_ok (g : List RowDict)
    (h : ∀ r ∈ g, (pyIntHex r.MISO).isSome ∧ (pyIntHex r.MOSI).isSome) :
    hex_pairs g = .ok (g.map (fun r => (pyIntHex r.MISO).getD 0),
      g.map (fun r => (pyIntHex r.MOSI).getD 0)) := by
  induction g with
  | nil => rfl
  | cons a rest ih =>
    obtain ⟨hm, ho⟩ := h a (by simp)
    obtain ⟨vm, hvm⟩ := Option.isSome_iff_exists.mp hm
    obtain ⟨vo, hvo⟩ := Option.isSome_iff_exists.mp ho
    have hne1 : a.MISO ≠ "" := pyIntHex_ne_empty hvm
    have hne2 : a.MOSI ≠ "" := pyIntHex_ne_empty hvo
    simp [hex_pairs, hne1, hne2, hvm, hvo, ih (fun x hx => h x (by simp [hx]))]

/-- A group containing an empty MISO or MOSI field makes `hex_pairs` fail. -/
theorem hex_pairs_error_of_empty (g : List RowDict)
    (h : ∃ r ∈ g, r.MISO = "" ∨ r.MOSI = "") : ∃ e, hex_pairs g = .error e := by
  induction g with
  | nil => obtain ⟨r, hr, _⟩ := h; cases hr
  | cons a rest ih =>
    obtain ⟨r, hr, hempty⟩ := h
    by_cases ha : a.MISO = "" ∨ a.MOSI = ""
    · exact ⟨.emptyMisoMosi, by simp [hex_pairs, ha]⟩
    · have hrrest : r ∈ rest := by
        rcases List.mem_cons.mp hr with rfl | hmem
        · exact absurd hempty ha
        · exact hmem
      obtain ⟨e, he⟩ := ih ⟨r, hrrest, hempty⟩
      cases hm : pyIntHex a.MISO with
      | none => exact ⟨.invalidHexLiteral a.MISO, by simp [hex_pairs, ha, hm]⟩
      | some vm =>
        cases ho : pyIntHex a.MOSI with
        | none => exact ⟨.invalidHexLiteral a.MOSI, by simp [hex_pairs, ha, hm, ho]⟩
        | some vo => exact ⟨e, by simp [hex_pairs, ha, hm, ho, he]⟩

/-- Inversion of a successful `hex_pairs`: every parsed value appears in the
collected lists. -/
theorem hex_pairs_mem (g : List RowDict) :
    ∀ ms os, hex_pairs g = .ok (ms, os) →
      ∀ r ∈ g, ∃ vm vo, pyIntHex r.MISO = some vm ∧ vm ∈ ms ∧
        pyIntHex r.MOSI = some vo ∧ vo ∈ os := by
  induction g with
  | nil => intro ms os _ r hr; cases hr
  | cons a rest ih =>
    intro ms os h r hr
    by_cases ha : a.MISO = "" ∨ a.MOSI = ""
    · simp [hex_pairs, ha] at h
    · cases hm : pyIntHex a.MISO with
      | none => simp [hex_pairs, ha, hm] at h
      | some vm =>
        cases ho : pyIntHex a.MOSI with
        | none => simp [hex_pairs, ha, hm, ho] at h
        | some vo =>
          cases hrest : hex_pairs rest with
          | error e => simp [hex_pairs, ha, hm, ho, hrest] at h
          | ok pr =>
            obtain ⟨ms', os'⟩ := pr
            have hsplit : vm :: ms' = ms ∧ vo :: os' = os := by
              simpa [hex_pairs, ha, hm, ho, hrest] using h
            rcases List.mem_cons.mp hr with rfl | hmem
            · exact ⟨vm, vo, hm, by simp [← hsplit.1], ho, by simp [← hsplit.2]⟩
            · obtain ⟨wm, wo, h1, h2, h3, h4⟩ := ih ms' os' hrest r hmem
              exact ⟨wm, wo, h1, by simp [← hsplit.1, h2], h3, by simp [← hsplit.2, h4]⟩

/-- A successful `bytes(...)` construction had all its inputs in range. -/
theorem py_bytes_ok_range (l : List Int) (bs : List Nat) (h : py_bytes l = .ok bs) :
    ∀ v ∈ l, 0 ≤ v ∧ v < 256 := by
  by_cases hall : ∀ v ∈ l, 0 ≤ v ∧ v < 256
  · exact hall
  · simp [py_bytes, hall] at h

/-- Inversion of a successful `packet_transform_group`. -/
theorem packet_transform_group_ok_inv (g : List RowDict) (p : ESC_raw_packet)
    (h : packet_transform_group g = .ok p) :
    ∃ ms os, hex_pairs g = .ok (ms, os) ∧
      py_bytes ms = .ok p.MISOs ∧ py_bytes os = .ok p.MOSIs := by
  cases hp : hex_pairs g with
  | error e => simp [packet_transform_group, hp] at h
  | ok pr =>
    obtain ⟨ms, os⟩ := pr
    cases hb1 : py_bytes ms with
    | error e => simp [packet_transform_group, hp, hb1] at h
    | ok m1 =>
      cases hb2 : py_bytes os with
      | error e => simp [packet_transform_group, hp, hb1, hb2] at h
      | ok m2 =>
        have hm : ESC_raw_packet.mk m1 m2 = p := by
          simpa [packet_transform_group, hp, hb1, hb2] using h
        refine ⟨ms, os, rfl, ?_, ?_⟩
        · rw [← hm]; exact hb1
        · rw [← hm]; exact hb2

/-! ## Claim C6: the decoder's failure cascade -/

/-- Claim C6: on an `Ok` raw packet the decoder fails exactly as the claim's
cascade predicts, in order — fewer than 2 MOSI bytes ("Packet too short, may
lose data during sampling"), a 3-bit action code outside `{0,2,3,4,6}`
("Invalid ESC action in MOSI data"), an ignored address (the distinguished
empty-reason failure), a NOP/ADDR_EXT action ("Unsupported ESC action") —
and succeeds otherwise. -/
theorem C6_failure_cascade (raw : ESC_raw_packet) (ign : List Nat) :
    errOf (ESC_raw_packet_to_ESC_packet (.ok raw) ign) = claim_C6_failure raw ign := by
  obtain ⟨misos, mosis⟩ := raw
  match mosis with
  | [] => simp [ESC_raw_packet_to_ESC_packet, claim_C6_failure, errOf]
  | [b0] => simp [ESC_raw_packet_to_ESC_packet, claim_C6_failure, errOf]
  | b0 :: b1 :: rest =>
    have h8 : b1 % 8 = 0 ∨ b1 % 8 = 1 ∨ b1 % 8 = 2 ∨ b1 % 8 = 3 ∨ b1 % 8 = 4 ∨
        b1 % 8 = 5 ∨ b1 % 8 = 6 ∨ b1 % 8 = 7 := by omega
    have haddr : int_from_bytes [b0, b1] = b0 * 256 + b1 := by
      simp [int_from_bytes]
    have hlen : ¬(rest.length + 1 + 1 < 2) := by omega
    by_cases hmem : (b0 * 256 + b1) / 8 ∈ ign <;>
      rcases h8 with h8 | h8 | h8 | h8 | h8 | h8 | h8 | h8 <;>
        simp [ESC_raw_packet_to_ESC_packet, claim_C6_failure, errOf,
          ESC_action.fromCode, ESC_action.name, h8, haddr, hmem, hlen, List.take]

/-! ## Claim C2: actions reaching the describer -/

/-- Claim C2 counterexample: the raw packet `[0x00, 0x02]` (action code 2,
READ) is decoded successfully, so decoder outputs are not limited to
READ_WAIT/WRITE, and on this READ packet the describer renders its
"(no description)" fallback — the branch is reachable on decoder outputs. -/
theorem C2_counterexample :
    ESC_raw_packet_to_ESC_packet (.ok sampleRawRead) [] = .ok samplePktRead ∧
      samplePktRead.m_act ≠ .READ_WAIT ∧ samplePktRead.m_act ≠ .WRITE ∧
      get_packet_desc (.ok samplePktRead) =
        .ok "mcu READ (no description), when AL event()" :=
  ⟨rfl, by decide, by decide, rfl⟩

/-- Claim C2 (amended): every packet the decoder produces has action READ,
READ_WAIT or WRITE; the describer describes `(address, response_value)` for
READ_WAIT and `(address, data)` for WRITE, while for READ (which does reach
the describer) it renders the "(no description)" fallback followed by the
AL-event clause. -/
theorem C2_amended_describer (raw : ESC_raw_packet) (ign : List Nat)
    (pkt : ESC_packet) (hB : ∀ b ∈ raw.MISOs, b < 256)
    (h : ESC_raw_packet_to_ESC_packet (.ok raw) ign = .ok pkt) :
    (pkt.m_act = .READ ∨ pkt.m_act = .READ_WAIT ∨ pkt.m_act = .WRITE) ∧
      (pkt.m_act = .READ_WAIT →
        get_packet_desc (.ok pkt) = describe_with pkt pkt.s_resp_val) ∧
      (pkt.m_act = .WRITE →
        get_packet_desc (.ok pkt) = describe_with pkt pkt.m_data) ∧
      (pkt.m_act = .READ → ∃ al,
        al_event_lookup (int_from_bytes pkt.al_intp_req_val) = .ok al ∧
        get_packet_desc (.ok pkt) =
          .ok ("mcu " ++ pkt.m_act.name ++ " " ++ "(no description)" ++
            ", when AL event(" ++ al ++ ")")) := by
  obtain ⟨b0, b1, rest, hm, _, _, hal, hc⟩ := decode_ok_elim h
  have hlen2 : pkt.al_intp_req_val.length ≤ 2 := by
    rw [hal]; simp [List.length_take]
  have hbyte : ∀ b ∈ pkt.al_intp_req_val, b < 256 := by
    rw [hal]
    intro b hb
    exact hB b (List.take_subset 2 _ (List.mem_reverse.mp hb))
  have hpow : 256 ^ pkt.al_intp_req_val.length ≤ 65536 := by
    calc 256 ^ pkt.al_intp_req_val.length ≤ 256 ^ 2 :=
          Nat.pow_le_pow_right (by norm_num) hlen2
      _ = 65536 := by norm_num
  have hn : int_from_bytes pkt.al_intp_req_val ≤ 4294967295 := by
    have h1 := int_from_bytes_lt _ hbyte
    omega
  obtain ⟨alS, halS⟩ := decode_al_event_req_ok _ hn
  have hlk : al_event_lookup (int_from_bytes pkt.al_intp_req_val) = .ok alS := by
    rw [al_event_lookup_eq]; exact halS
  rcases hc with ⟨ha, _, hs, hd⟩ | ⟨ha, _, hs, hd⟩ | ⟨ha, _, hd, hs⟩
  · refine ⟨Or.inl ha, ?_, ?_, ?_⟩
    · intro hcontra; rw [ha] at hcontra; cases hcontra
    · intro hcontra; rw [ha] at hcontra; cases hcontra
    · intro _
      exact ⟨alS, hlk, by simp [get_packet_desc, ha, hlk]⟩
  · refine ⟨Or.inr (Or.inl ha), ?_, ?_, ?_⟩
    · intro _; simp [get_packet_desc, describe_with, ha]
    · intro hcontra; rw [ha] at hcontra; cases hcontra
    · intro hcontra; rw [ha] at hcontra; cases hcontra
  · refine ⟨Or.inr (Or.inr ha), ?_, ?_, ?_⟩
    · intro hcontra; rw [ha] at hcontra; cases hcontra
    · intro _; simp [get_packet_desc, describe_with, ha]
    · intro hcontra; rw [ha] at hcontra; cases hcontra

/-- Witness for `C2_amended_describer` at the concrete READ packet. -/
theorem C2_amended_witness :
    (samplePktRead.m_act = .READ ∨ samplePktRead.m_act = .READ_WAIT ∨
        samplePktRead.m_act = .WRITE) ∧
      (samplePktRead.m_act = .READ_WAIT →
        get_packet_desc (.ok samplePktRead) =
          describe_with samplePktRead samplePktRead.s_resp_val) ∧
      (samplePktRead.m_act = .WRITE →
        get_packet_desc (.ok samplePktRead) =
          describe_with samplePktRead samplePktRead.m_data) ∧
      (samplePktRead.m_act = .READ → ∃ al,
        al_event_lookup (int_from_bytes samplePktRead.al_intp_req_val) = .ok al ∧
        get_packet_desc (.ok samplePktRead) =
          .ok ("mcu " ++ samplePktRead.m_act.name ++ " " ++ "(no description)" ++
            ", when AL event(" ++ al ++ ")")) :=
  C2_amended_describer sampleRawRead [] samplePktRead (by decide) rfl

/-! ## Claim C3: input validation of the register decode table -/

/-- Claim C3 counterexample: the decode function registered for address
0x0000 (`decode_ch2_1`, rendering a 32-bit identification dump) performs no
input validation: at `2^32` — outside the register's 32-bit width — it
returns a description instead of raising. -/
theorem C3_counterexample :
    List.lookup 0x0000 ESC_desc_map = some decode_ch2_1 ∧
      decode_ch2_1 4294967296 = .ok "Identification Register: 0x100000000" :=
  ⟨rfl, rfl⟩

/-- Claim C3 (amended): of the decode functions registered in
`ESC_desc_map`, the seven with asserts — `decode_run_led_override`,
`decode_err_led_override`, `decode_al_status_code` (8-bit),
`decode_pdi_control` (16-bit), `decode_al_event_req` (32-bit),
`decode_sync_manager_status` and `decode_watchdog_status` (8-bit) — fail on
every value outside their documented width, but the four registered for
0x0000, 0x0004, 0x0120 and 0x0130 (`decode_ch2_1`, `decode_ch2_2`,
`decode_ch2_20`, `decode_ch2_21`) accept every integer without
validation. -/
theorem C3_amended_validation :
    (∀ v : Int, (v < 0 ∨ 255 < v) → decode_run_led_override v =
      .error (.assertionError "Value must be a single byte (0-255)")) ∧
    (∀ v : Int, (v < 0 ∨ 255 < v) → decode_err_led_override v =
      .error (.assertionError "Value must be a single byte (0-255)")) ∧
    (∀ v : Int, (v < 0 ∨ 255 < v) → decode_al_status_code v =
      .error (.assertionError "Value must be a single byte (0-255)")) ∧
    (∀ v : Int, (v < 0 ∨ 65535 < v) → decode_pdi_control v =
      .error (.assertionError "Value must be a 16-bit value (0-65535)")) ∧
    (∀ v : Int, (v < 0 ∨ 4294967295 < v) → decode_al_event_req v =
      .error (.assertionError "Value must be a 32-bit value (0-4294967295)")) ∧
    (∀ v : Int, (v < 0 ∨ 255 < v) → decode_sync_manager_status v =
      .error (.assertionError "Value must be a single byte (0-255)")) ∧
    (∀ v : Int, (v < 0 ∨ 255 < v) → decode_watchdog_status v =
      .error (.assertionError "Value must be a single byte (0-255)")) ∧
    (∀ v : Int, ∃ s, decode_ch2_1 v = .ok s) ∧
    (∀ v : Int, ∃ s, decode_ch2_2 v = .ok s) ∧
    (∀ v : Int, ∃ s, decode_ch2_20 v = .ok s) ∧
    (∀ v : Int, ∃ s, decode_ch2_21 v = .ok s) := by
  refine ⟨?_, ?_, ?_, ?_, ?_, ?_, ?_,
    fun v => ⟨_, rfl⟩, fun v => ⟨_, rfl⟩, fun v => ⟨_, rfl⟩, fun v => ⟨_, rfl⟩⟩
  · intro v hv
    rw [decode_run_led_override, if_pos (show ¬(0 ≤ v ∧ v ≤ 255) by omega)]
  · intro v hv
    rw [decode_err_led_override, if_pos (show ¬(0 ≤ v ∧ v ≤ 255) by omega)]
  · intro v hv
    rw [decode_al_status_code, if_pos (show ¬(0 ≤ v ∧ v ≤ 255) by omega)]
  · intro v hv
    rw [decode_pdi_control, if_pos (show ¬(0 ≤ v ∧ v ≤ 65535) by omega)]
  · intro v hv
    rw [decode_al_event_req, if_pos (show ¬(0 ≤ v ∧ v ≤ 4294967295) by omega)]
  · intro v hv
    rw [decode_sync_manager_status, if_pos (show ¬(0 ≤ v ∧ v ≤ 255) by omega)]
  · intro v hv
    rw [decode_watchdog_status, if_pos (show ¬(0 ≤ v ∧ v ≤ 255) by omega)]

/-- Witness for `C3_amended_validation`: the RUN-LED decoder rejects 256,
and `decode_ch2_1` accepts `2^32`. -/
theorem C3_amended_witness :
    decode_run_led_override 256 =
        .error (.assertionError "Value must be a single byte (0-255)") ∧
      ∃ s, decode_ch2_1 4294967296 = .ok s :=
  ⟨C3_amended_validation.1 256 (Or.inr (by norm_num)),
    C3_amended_validation.2.2.2.2.2.2.2.1 4294967296⟩

/-! ## Claim C5: payload-field invariant -/

/-- Claim C5 counterexample: the 2-byte WRITE header `[0x00, 0x04]` decodes
successfully with `m_data` and `s_resp_val` both empty, refuting "exactly one
of the two fields is non-empty" for a successfully decoded WRITE. -/
theorem C5_counterexample :
    ESC_raw_packet_to_ESC_packet (.ok sampleRawWriteNoPayload) [] =
        .ok samplePktWriteNoPayload ∧
      samplePktWriteNoPayload.m_act = .WRITE ∧
      samplePktWriteNoPayload.m_data = [] ∧
      samplePktWriteNoPayload.s_resp_val = [] :=
  ⟨rfl, rfl, rfl, rfl⟩

/-- Claim C5 (amended): for every successfully decoded packet, `m_data` is
non-empty only for WRITE and `s_resp_val` only for READ/READ_WAIT, and at
most one of the two is non-empty — both may be empty when the packet carries
no payload bytes (e.g. a WRITE whose MOSI sequence is just the 2-byte
header). -/
theorem C5_amended_payload_fields (raw : ESC_raw_packet) (ign : List Nat)
    (pkt : ESC_packet) (h : ESC_raw_packet_to_ESC_packet (.ok raw) ign = .ok pkt) :
    (pkt.m_data ≠ [] → pkt.m_act = .WRITE) ∧
      (pkt.s_resp_val ≠ [] → pkt.m_act = .READ ∨ pkt.m_act = .READ_WAIT) ∧
      ¬(pkt.m_data ≠ [] ∧ pkt.s_resp_val ≠ []) := by
  obtain ⟨b0, b1, rest, hm, _, _, hal, hc⟩ := decode_ok_elim h
  rcases hc with ⟨ha, _, hs, hd⟩ | ⟨ha, _, hs, hd⟩ | ⟨ha, _, hd, hs⟩ <;>
    simp [ha, hs, hd]

/-- Witness for `C5_amended_payload_fields` at the decoded READ_WAIT packet. -/
theorem C5_amended_witness :
    (samplePktReadWait.m_data ≠ [] → samplePktReadWait.m_act = .WRITE) ∧
      (samplePktReadWait.s_resp_val ≠ [] →
        samplePktReadWait.m_act = .READ ∨ samplePktReadWait.m_act = .READ_WAIT) ∧
      ¬(samplePktReadWait.m_data ≠ [] ∧ samplePktReadWait.s_resp_val ≠ []) :=
  C5_amended_payload_fields sampleRawReadWait [] samplePktReadWait rfl

/-! ## Aggregator lemmas shared by the aggregation claims -/

/-- Emitting groups loses and duplicates nothing: the concatenation of the
output of `aggregateGo` is the open group followed by the remaining rows. -/
theorem aggregateGo_join (th : Int) :
    ∀ (rows group : List RowDict) (last : Int),
      (aggregateGo th rows group last).flatten = group ++ rows := by
  intro rows
  induction rows with
  | nil =>
    intro group last
    by_cases hgrp : group = [] <;> simp [aggregateGo, hgrp]
  | cons r rs ih =>
    intro group last
    by_cases hgrp : group = []
    · subst hgrp; simp [aggregateGo, ih]
    · by_cases hcond : r.time - last ≤ 1000 * th
      · simp [aggregateGo, hgrp, hcond, ih]
      · simp [aggregateGo, hgrp, hcond, ih]

/-- Every group emitted by `aggregateGo` is internally chained: each
appended row was within the threshold of the previous row's timestamp. -/
theorem aggregateGo_intra (th : Int) :
    ∀ (rows group : List RowDict) (last : Int),
      List.Chain' (fun a b => b.time - a.time ≤ 1000 * th) group →
      (∀ x, group.getLast? = some x → x.time = last) →
      ∀ g ∈ aggregateGo th rows group last,
        List.Chain' (fun a b => b.time - a.time ≤ 1000 * th) g := by
  intro rows
  induction rows with
  | nil =>
    intro group last hch _ g hg
    by_cases hgrp : group = [] <;> simp [aggregateGo, hgrp] at hg
    · exact hg ▸ hch
  | cons r rs ih =>
    intro group last hch hlast g hg
    by_cases hgrp : group = []
    · subst hgrp
      simp only [aggregateGo, if_pos rfl] at hg
      refine ih [r] r.time (by simp) ?_ g hg
      intro x hx
      simp at hx
      subst hx; rfl
    · by_cases hcond : r.time - last ≤ 1000 * th
      · simp only [aggregateGo, if_neg hgrp, if_pos hcond] at hg
        refine ih (group ++ [r]) r.time ?_ ?_ g hg
        · refine List.chain'_append.mpr ⟨hch, by simp, ?_⟩
          intro x hx y hy
          simp at hy
          subst hy
          have := hlast x (by simpa using hx)
          omega
        · intro x hx
          rw [List.getLast?_concat] at hx
          simp at hx
          subst hx; rfl
      · simp only [aggregateGo, if_neg hgrp, if_neg hcond, List.mem_cons] at hg
        rcases hg with hg | hg
        · exact hg ▸ hch
        · refine ih [r] r.time (by simp) ?_ g hg
          intro x hx
          simp at hx
          subst hx; rfl

/-- The first group emitted by `aggregateGo` starts with the head of the
open group. -/
theorem aggregateGo_head (th : Int) :
    ∀ (rows group : List RowDict) (last : Int), group ≠ [] →
      ∀ g ∈ (aggregateGo th rows group last).head?, g.head? = group.head? := by
  intro rows
  induction rows with
  | nil =>
    intro group last hgrp g hg
    simp [aggregateGo, hgrp] at hg
    subst hg; rfl
  | cons r rs ih =>
    intro group last hgrp g hg
    by_cases hcond : r.time - last ≤ 1000 * th
    · simp only [aggregateGo, if_neg hgrp, if_pos hcond] at hg
      have := ih (group ++ [r]) r.time (by simp) g hg
      rw [this]
      obtain ⟨a, gs, rfl⟩ := List.exists_cons_of_ne_nil hgrp
      simp
    · simp only [aggregateGo, if_neg hgrp, if_neg hcond] at hg
      simp at hg
      subst hg; rfl

/-- Consecutive groups emitted by `aggregateGo` are separated by more than
the threshold. -/
theorem aggregateGo_boundary (th : Int) :
    ∀ (rows group : List RowDict) (last : Int),
      (∀ x, group.getLast? = some x → x.time = last) →
      List.Chain' (fun g1 g2 => ∀ x ∈ g1.getLast?, ∀ y ∈ g2.head?,
        1000 * th < y.time - x.time) (aggregateGo th rows group last) := by
  intro rows
  induction rows with
  | nil =>
    intro group last _
    by_cases hgrp : group = [] <;> simp [aggregateGo, hgrp]
  | cons r rs ih =>
    intro group last hlast
    by_cases hgrp : group = []
    · subst hgrp
      simp only [aggregateGo, if_pos rfl]
      refine ih [r] r.time ?_
      intro x hx
      simp at hx
      subst hx; rfl
    · by_cases hcond : r.time - last ≤ 1000 * th
      · simp only [aggregateGo, if_neg hgrp, if_pos hcond]
        refine ih (group ++ [r]) r.time ?_
        intro x hx
        rw [List.getLast?_concat] at hx
        simp at hx
        subst hx; rfl
      · simp only [aggregateGo, if_neg hgrp, if_neg hcond]
        refine List.chain'_cons'.mpr ⟨?_, ?_⟩
        · intro g' hg' x hx y hy
          have hhead := aggregateGo_head th rs [r] r.time (by simp) g' hg'
          rw [hhead] at hy
          simp at hy
          subst hy
          have := hlast x (by simpa using hx)
          omega
        · refine ih [r] r.time ?_
          intro x hx
          simp at hx
          subst hx; rfl

/-! ## Claim C4: degenerate thresholds -/

/-- Claim C4 counterexample: with threshold 0 (which is ≤ 0) two samples
with identical timestamps are aggregated into one two-sample group, so
zero thresholds do not degenerate to one-sample-per-group. -/
theorem C4_counterexample :
    aggregate_stream [sampleRowT0, sampleRowT0] 0 = [[sampleRowT0, sampleRowT0]] ∧
      ¬∀ g ∈ aggregate_stream [sampleRowT0, sampleRowT0] 0, g.length = 1 := by
  exact ⟨by decide, by decide⟩

/-- One-sample regime of the loop: with a non-positive threshold and
strictly increasing timestamps every emitted group is a singleton. -/
theorem aggregateGo_singleton (th : Int) (hth : th ≤ 0) :
    ∀ (rows : List RowDict) (x : RowDict),
      List.Chain' (fun a b => a.time < b.time) (x :: rows) →
      ∀ g ∈ aggregateGo th rows [x] x.time, g.length = 1 := by
  intro rows
  induction rows with
  | nil =>
    intro x _ g hg
    simp [aggregateGo] at hg
    subst hg; rfl
  | cons r rs ih =>
    intro x hch g hg
    have hlt : x.time < r.time := (List.chain'_cons.mp hch).1
    have hcond : ¬(r.time - x.time ≤ 1000 * th) := by omega
    simp only [aggregateGo, if_neg (by simp : ¬([x] = ([] : List RowDict))),
      if_neg hcond, List.mem_cons] at hg
    rcases hg with hg | hg
    · subst hg; rfl
    · exact ih r (List.chain'_cons.mp hch).2 g hg

/-- Claim C4 (amended): for every input whose timestamps are strictly
increasing and every threshold ≤ 0, every group emitted by the aggregator
contains exactly one sample.  (The restriction to strictly increasing
timestamps is forced by `C4_counterexample`: with threshold 0, samples with
equal timestamps still share a group.) -/
theorem C4_amended_one_sample_groups (rows : List RowDict) (th : Int)
    (hth : th ≤ 0) (hmono : List.Chain' (fun a b => a.time < b.time) rows) :
    ∀ g ∈ aggregate_stream rows th, g.length = 1 := by
  match rows with
  | [] => intro g hg; simp [aggregate_stream, aggregateGo] at hg
  | r :: rs =>
    intro g hg
    exact aggregateGo_singleton th hth rs r hmono g hg

/-- Witness for `C4_amended_one_sample_groups`: the first group emitted for
two strictly increasing rows under threshold `-1` is a singleton. -/
theorem C4_amended_witness : ([sampleRowT0] : List RowDict).length = 1 :=
  C4_amended_one_sample_groups [sampleRowT0, sampleRowT5us] (-1) (by decide)
    (by norm_num [List.chain'_cons, sampleRowT0, sampleRowT5us]) [sampleRowT0] (by decide)

/-! ## Claim C8: the aggregator partitions its input -/

/-- Claim C8: for monotone timestamps and a positive threshold, the emitted
groups concatenate back to the input (nothing dropped or duplicated),
adjacent samples inside a group differ by at most the threshold
(`1000 * th` nanoseconds for a threshold of `th` microseconds), and the gap
across every group boundary exceeds the threshold. -/
theorem C8_partition (rows : List RowDict) (th : Int) (_hth : 0 < th)
    (hmono : List.Chain' (fun a b => a.time ≤ b.time) rows) :
    (aggregate_stream rows th).flatten = rows ∧
      (∀ g ∈ aggregate_stream rows th,
        List.Chain' (fun a b => b.time - a.time ≤ 1000 * th) g) ∧
      List.Chain' (fun g1 g2 => ∀ x ∈ g1.getLast?, ∀ y ∈ g2.head?,
        1000 * th < y.time - x.time) (aggregate_stream rows th) := by
  match rows with
  | [] =>
    exact ⟨rfl, by intro g hg; simp [aggregate_stream, aggregateGo] at hg,
      by simp [aggregate_stream, aggregateGo]⟩
  | r :: rs =>
    have hlast : ∀ x, ([r] : List RowDict).getLast? = some x → x.time = r.time := by
      intro x hx
      simp at hx
      subst hx; rfl
    refine ⟨?_, ?_, ?_⟩
    · exact aggregateGo_join th rs [r] r.time
    · exact aggregateGo_intra th rs [r] r.time (by simp) hlast
    · exact aggregateGo_boundary th rs [r] r.time hlast

/-- Witness for `C8_partition`: two rows 5 µs apart under a 4 µs threshold
still concatenate back to the input. -/
theorem C8_partition_witness :
    (aggregate_stream [sampleRowT0, sampleRowT5us] 4).flatten =
      [sampleRowT0, sampleRowT5us] :=
  (C8_partition [sampleRowT0, sampleRowT5us] 4 (by decide)
    (by norm_num [List.chain'_cons, sampleRowT0, sampleRowT5us])).1

/-! ## Claim C7: byte-order handling of the decoded fields -/

/-- Claim C7: for every successful decode, `al_intp_req_val` is the byte
reversal of the first two MISO bytes; for READ the response value reverses
`miso_bytes[2:]`, for READ_WAIT it reverses `miso_bytes[3:]` (one wait-state
byte skipped), and for WRITE the data reverses `mosi_bytes[2:]`. -/
theorem C7_endianness (raw : ESC_raw_packet) (ign : List Nat)
    (pkt : ESC_packet) (h : ESC_raw_packet_to_ESC_packet (.ok raw) ign = .ok pkt) :
    pkt.al_intp_req_val = (raw.MISOs.take 2).reverse ∧
      (pkt.m_act = .READ → pkt.s_resp_val = (raw.MISOs.drop 2).reverse) ∧
      (pkt.m_act = .READ_WAIT → pkt.s_resp_val = (raw.MISOs.drop 3).reverse) ∧
      (pkt.m_act = .WRITE → pkt.m_data = (raw.MOSIs.drop 2).reverse) := by
  obtain ⟨b0, b1, rest, hm, _, _, hal, hc⟩ := decode_ok_elim h
  rcases hc with ⟨ha, _, hs, hd⟩ | ⟨ha, _, hs, hd⟩ | ⟨ha, _, hd, hs⟩ <;>
    simp [ha, hs, hd, hal]

/-! ## Claim C9: the Byte Assembler round-trip -/

/-- Claim C9: a group in which every MISO/MOSI field is a valid non-empty
hex string encoding one byte yields exactly one raw packet whose two byte
sequences have the group's length and whose i-th bytes are the base-16
parses of the i-th row's fields; a group containing an empty field yields a
failure instead. -/
theorem C9_byte_assembler (g : List RowDict) :
    ((∀ r ∈ g, ∃ vm vo : Int,
        pyIntHex r.MISO = some vm ∧ 0 ≤ vm ∧ vm < 256 ∧
        pyIntHex r.MOSI = some vo ∧ 0 ≤ vo ∧ vo < 256) →
      ∃ p, packet_transform_group g = .ok p ∧
        p.MISOs.length = g.length ∧ p.MOSIs.length = g.length ∧
        ∀ i : Fin g.length,
          pyIntHex (g.get i).MISO = some ((p.MISOs.getD i 0 : Nat) : Int) ∧
          pyIntHex (g.get i).MOSI = some ((p.MOSIs.getD i 0 : Nat) : Int)) ∧
    ((∃ r ∈ g, r.MISO = "" ∨ r.MOSI = "") →
      ∃ e, packet_transform_group g = .error e) := by
  constructor
  · intro h
    have hpairs := hex_pairs_ok g (fun r hr => by
      obtain ⟨vm, vo, h1, _, _, h4, _, _⟩ := h r hr
      exact ⟨by simp [h1], by simp [h4]⟩)
    have hmiso : ∀ v ∈ g.map (fun r => (pyIntHex r.MISO).getD 0), 0 ≤ v ∧ v < 256 := by
      intro v hv
      simp only [List.mem_map] at hv
      obtain ⟨r, hr, rfl⟩ := hv
      obtain ⟨vm, vo, h1, h2, h3, _⟩ := h r hr
      simp [h1]
      omega
    have hmosi : ∀ v ∈ g.map (fun r => (pyIntHex r.MOSI).getD 0), 0 ≤ v ∧ v < 256 := by
      intro v hv
      simp only [List.mem_map] at hv
      obtain ⟨r, hr, rfl⟩ := hv
      obtain ⟨vm, vo, _, _, _, h4, h5, h6⟩ := h r hr
      simp [h4]
      omega
    have hb1 : py_bytes (g.map (fun r => (pyIntHex r.MISO).getD 0)) =
        .ok ((g.map (fun r => (pyIntHex r.MISO).getD 0)).map Int.toNat) := by
      rw [py_bytes, if_pos hmiso]
    have hb2 : py_bytes (g.map (fun r => (pyIntHex r.MOSI).getD 0)) =
        .ok ((g.map (fun r => (pyIntHex r.MOSI).getD 0)).map Int.toNat) := by
      rw [py_bytes, if_pos hmosi]
    refine ⟨⟨(g.map (fun r => (pyIntHex r.MISO).getD 0)).map Int.toNat,
      (g.map (fun r => (pyIntHex r.MOSI).getD 0)).map Int.toNat⟩, ?_, by simp, by simp, ?_⟩
    · simp only [packet_transform_group, hpairs, hb1, hb2]
    · intro i
      have hmem : g.get i ∈ g := by
        apply List.get_mem
      obtain ⟨vm, vo, h1, h2, h3, h4, h5, h6⟩ := h (g.get i) hmem
      have h1g : pyIntHex (g[i.val]).MISO = some vm := h1
      have h4g : pyIntHex (g[i.val]).MOSI = some vo := h4
      constructor
      · rw [h1]
        simp only [List.map_map]
        rw [List.getD_eq_getElem _ _ (by simp [i.isLt])]
        simp only [List.getElem_map, Function.comp_apply, h1g, Option.getD_some,
          Option.some.injEq]
        omega
      · rw [h4]
        simp only [List.map_map]
        rw [List.getD_eq_getElem _ _ (by simp [i.isLt])]
        simp only [List.getElem_map, Function.comp_apply, h4g, Option.getD_some,
          Option.some.injEq]
        omega
  · intro hempty
    obtain ⟨e, he⟩ := hex_pairs_error_of_empty g hempty
    exact ⟨e, by simp [packet_transform_group, he]⟩

/-- Witness for `C9_byte_assembler` at the one-row group `[⟨"aa","34",_⟩]`. -/
theorem C9_byte_assembler_witness :
    ∃ p, packet_transform_group [sampleRowT5us] = .ok p ∧
      p.MISOs.length = [sampleRowT5us].length ∧
      p.MOSIs.length = [sampleRowT5us].length ∧
      ∀ i : Fin ([sampleRowT5us] : List RowDict).length,
        pyIntHex (([sampleRowT5us] : List RowDict).get i).MISO =
          some ((p.MISOs.getD i 0 : Nat) : Int) ∧
        pyIntHex (([sampleRowT5us] : List RowDict).get i).MOSI =
          some ((p.MOSIs.getD i 0 : Nat) : Int) :=
  (C9_byte_assembler [sampleRowT5us]).1 (by
    intro r hr
    simp only [List.mem_singleton] at hr
    subst hr
    exact ⟨170, 52, rfl, by norm_num, by norm_num, rfl, by norm_num, by norm_num⟩)

/-! ## Claim C10: out-of-range hex values are rejected -/

/-- Claim C10: a group containing a field that parses in base 16 to a value
outside `0..255` (e.g. a three-digit hex string or a negative value) makes
the Byte Assembler fail for that group — the `bytes(...)` construction
rejects out-of-range integers instead of truncating. -/
theorem C10_out_of_range (g : List RowDict)
    (h : ∃ r ∈ g, (∃ v : Int, pyIntHex r.MISO = some v ∧ (v < 0 ∨ 255 < v)) ∨
      (∃ v : Int, pyIntHex r.MOSI = some v ∧ (v < 0 ∨ 255 < v))) :
    ∃ e, packet_transform_group g = .error e := by
  cases hres : packet_transform_group g with
  | error e => exact ⟨e, rfl⟩
  | ok p =>
    exfalso
    obtain ⟨ms, os, hp, hb1, hb2⟩ := packet_transform_group_ok_inv g p hres
    obtain ⟨r, hr, hcase⟩ := h
    obtain ⟨vm, vo, h1, h2, h3, h4⟩ := hex_pairs_mem g ms os hp r hr
    rcases hcase with ⟨v, hv, hout⟩ | ⟨v, hv, hout⟩
    · rw [h1] at hv
      injection hv with hv
      have := py_bytes_ok_range ms p.MISOs hb1 vm h2
      omega
    · rw [h3] at hv
      injection hv with hv
      have := py_bytes_ok_range os p.MOSIs hb2 vo h4
      omega

/-- Witness for `C10_out_of_range` at the group containing the row with
MISO field "1FF" (value 511). -/
theorem C10_out_of_range_witness :
    ∃ e, packet_transform_group [sampleRowBig] = .error e :=
  C10_out_of_range [sampleRowBig]
    ⟨sampleRowBig, by simp, Or.inl ⟨511, rfl, by norm_num⟩⟩

/-- Witness for `C7_endianness` at the concrete READ_WAIT packet with a
5-byte MISO sequence (the decoded response value `[5, 4]` has length 2). -/
theorem C7_endianness_witness :
    samplePktReadWait.al_intp_req_val = (sampleRawReadWait.MISOs.take 2).reverse ∧
      (samplePktReadWait.m_act = .READ →
        samplePktReadWait.s_resp_val = (sampleRawReadWait.MISOs.drop 2).reverse) ∧
      (samplePktReadWait.m_act = .READ_WAIT →
        samplePktReadWait.s_resp_val = (sampleRawReadWait.MISOs.drop 3).reverse) ∧
      (samplePktReadWait.m_act = .WRITE →
        samplePktReadWait.m_data = (sampleRawReadWait.MOSIs.drop 2).reverse) :=
  C7_endianness sampleRawReadWait [] samplePktReadWait rfl

end EscDecode
